import Mathlib

/-!
Verification of the tool-augmented LLM orchestration loop of
`backend/ai_generator.py` (class `AIGenerator`: `generate_response` and
`_handle_tool_execution`).

Modelling choices:
* Content blocks are duck-typed records carrying all attributes the code
  reads (`type`, `text`, `name`, `id`, `input`), mirroring the objects the
  code manipulates.
* The Anthropic client is an environment `Client : Nat → Except String
  ModelResponse` mapping the index of a `messages.create` call (0-based,
  counted per `generate_response` invocation) to its outcome; a `.error`
  models the call raising.  The tool manager is `ToolManager : String →
  ToolInput → Except String String`; a `.error` models `execute_tool`
  raising.
* Every side effect is recorded in a `CallLog`: the full parameters of each
  model call in order, each tool dispatch (name and kwargs) in order, and a
  counter of tool-execution rounds.  The log is threaded through errors, so
  call counts are observable even for runs that raise.
* Python truthiness of `tools` (None and `[]` are falsy) and of
  `conversation_history` (None and `""` are falsy) is modelled explicitly.
* `config.MAX_TOOL_ROUNDS` comes from `config.py`, which is not among the
  sources; it is a field of `RagConfig` below, default taken from the spec.
-/

abbrev ToolInput := List (String × String)

abbrev ToolDef := String

structure ContentBlock where
  type : String
  text : String
  name : String
  id : String
  input : ToolInput
deriving DecidableEq, Repr

structure ToolResult where
  type : String
  tool_use_id : String
  content : String
deriving DecidableEq, Repr

structure ModelResponse where
  stop_reason : String
  content : List ContentBlock
deriving DecidableEq, Repr

inductive MessageContent where
  | str (s : String)
  | blocks (bs : List ContentBlock)
  | toolResults (rs : List ToolResult)
deriving DecidableEq, Repr

structure ChatMessage where
  role : String
  content : MessageContent
deriving DecidableEq, Repr

structure ApiParams where
  model : String
  temperature : Nat
  max_tokens : Nat
  messages : List ChatMessage
  system : String
  tools : Option (List ToolDef)
  tool_choice : Option String
deriving DecidableEq, Repr

structure CallLog where
  apiCalls : List ApiParams
  toolCalls : List (String × ToolInput)
  execRounds : Nat
deriving DecidableEq, Repr

def CallLog.empty : CallLog := ⟨[], [], 0⟩

abbrev Client := Nat → Except String ModelResponse

abbrev ToolManager := String → ToolInput → Except String String

/-- Modelled from the spec: `config.py` is not among the sources; spec
section 4.3 fixes the default round limit at 2 ("the configured maximum
(default 2)").  The claims quantify over the configured maximum, so it is
kept as a field. -/
structure RagConfig where
  MAX_TOOL_ROUNDS : Nat
deriving DecidableEq, Repr

def defaultConfig : RagConfig := ⟨2⟩

structure AIGenerator where
  model : String
deriving DecidableEq, Repr

/-- The static system prompt of `AIGenerator` (source lines 9-52). -/
def SYSTEM_PROMPT : String :=
  " You are an AI assistant specialized in course materials and educational content with access to two tools for course information.\n\nAvailable Tools:\n1. **get_course_outline**: Use for queries about course structure, overview, or lesson list\n   - Course outline or syllabus requests\n   - \"What lessons are in [course]?\"\n   - \"What does [course] cover?\"\n   - Course instructor or link information\n\n2. **search_course_content**: Use for queries about specific content within courses/lessons\n   - Specific topics, concepts, or details from lessons\n   - \"What is covered in lesson X?\"\n   - Technical details or implementations\n   - Searching for specific information across courses\n\nTool Usage Guidelines:\n- **Up to 2 tool call rounds per query** - You can make sequential tool calls to gather information\n- **Sequential reasoning**: Use first tool\x27s results to inform second tool call if needed\n- **Common patterns**:\n  * Get course outline first, then search specific lesson content\n  * Search content, then retrieve related course structure\n  * Compare information across multiple courses/lessons\n- **Efficient usage**: Only make additional tool calls when prior results are insufficient\n- **Synthesize all tool results** into accurate, comprehensive responses\n- **If any tool yields no results**, state this clearly without speculation\n\nResponse Protocol:\n- **General knowledge questions**: Answer using existing knowledge without using tools\n- **Course structure questions**: Use get_course_outline tool\n- **Course content questions**: Use search_course_content tool\n- **Complex queries**: Use multiple tools sequentially if needed\n- **No meta-commentary**:\n  - Provide direct answers only — no reasoning process, tool explanations, or query analysis\n  - Do not mention \"based on the tool results\" or similar phrases\n  - Do not describe your tool usage strategy\n\n\nAll responses must be:\n1. **Brief, Concise and focused** - Get to the point quickly\n2. **Educational** - Maintain instructional value\n3. **Clear** - Use accessible language\n4. **Example-supported** - Include relevant examples when they aid understanding\nProvide only the direct answer to what was asked.\n"

/-- The pre-built `self.base_params` (model, temperature 0, max_tokens 800)
extended with the per-call keys, as in `{**self.base_params, ...}`. -/
def mkParams (g : AIGenerator) (msgs : List ChatMessage) (system : String)
    (tools : Option (List ToolDef)) (tool_choice : Option String) : ApiParams :=
  ⟨g.model, 0, 800, msgs, system, tools, tool_choice⟩

/-- `content[0].text`: raises IndexError on empty content. -/
def firstText : List ContentBlock → Except String String
  | [] => .error "IndexError"
  | b :: _ => .ok b.text

/-- One `self.client.messages.create(**p)` call: the environment answers by
call index; the attempted call and its parameters are recorded. -/
def callModel (client : Client) (log : CallLog) (p : ApiParams) :
    Except String ModelResponse × CallLog :=
  (client log.apiCalls.length, {log with apiCalls := log.apiCalls ++ [p]})

/-- One `tool_manager.execute_tool(name, **input)` dispatch, recorded. -/
def execTool (tm : ToolManager) (log : CallLog) (nm : String) (input : ToolInput) :
    Except String String × CallLog :=
  (tm nm input, {log with toolCalls := log.toolCalls ++ [(nm, input)]})

/-- The `for content_block in current_response.content` loop of
`_handle_tool_execution` (source lines 148-161): dispatch each `tool_use`
block in order, collecting one `tool_result` entry per block. -/
def runToolBlocks (tm : ToolManager) : List ContentBlock → CallLog →
    Except String (List ToolResult) × CallLog
  | [], log => (.ok [], log)
  | b :: rest, log =>
    if b.type = "tool_use" then
      match execTool tm log b.name b.input with
      | (.error e, log1) => (.error e, log1)
      | (.ok s, log1) =>
        match runToolBlocks tm rest log1 with
        | (.error e, log2) => (.error e, log2)
        | (.ok rs, log2) => (.ok (⟨"tool_result", b.id, s⟩ :: rs), log2)
    else runToolBlocks tm rest log

/-- The `while tool_round < MAX_TOOL_ROUNDS` loop of
`_handle_tool_execution` (source lines 136-183), written by recursion on the
remaining fuel `MAX_TOOL_ROUNDS - tool_round`.  At fuel 0 the loop exits and
returns `current_response.content[0].text`; otherwise, a non-`tool_use` stop
reason returns that text early; otherwise the assistant turn is appended,
all tool blocks are executed, a combined user-role result turn is appended
when non-empty, and the next call attaches the tools exactly when the
incremented round counter is still below the maximum (`f ≠ 0`). -/
def toolRounds (g : AIGenerator) (client : Client) (tm : ToolManager) (bp : ApiParams) :
    Nat → List ChatMessage → ModelResponse → CallLog → Except String String × CallLog
  | 0, _msgs, current, log => (firstText current.content, log)
  | f + 1, msgs, current, log =>
    if current.stop_reason ≠ "tool_use" then (firstText current.content, log)
    else
      let log1 := {log with execRounds := log.execRounds + 1}
      let msgs1 := msgs ++ [⟨"assistant", .blocks current.content⟩]
      match runToolBlocks tm current.content log1 with
      | (.error e, log2) => (.error e, log2)
      | (.ok tool_results, log2) =>
        let msgs2 := if tool_results.isEmpty then msgs1
          else msgs1 ++ [⟨"user", .toolResults tool_results⟩]
        let next_params : ApiParams :=
          if f ≠ 0 then mkParams g msgs2 bp.system (some (bp.tools.getD [])) (some "auto")
          else mkParams g msgs2 bp.system none none
        match callModel client log2 next_params with
        | (.error e, log3) => (.error e, log3)
        | (.ok resp, log3) => toolRounds g client tm bp f msgs2 resp log3

/-- `_handle_tool_execution` (source lines 111-183): starts the round loop
at `tool_round = 0` on a copy of the initial message list. -/
def handle_tool_execution (g : AIGenerator) (cfg : RagConfig) (client : Client)
    (tm : ToolManager) (initial_response : ModelResponse) (bp : ApiParams)
    (log : CallLog) : Except String String × CallLog :=
  toolRounds g client tm bp cfg.MAX_TOOL_ROUNDS bp.messages initial_response log

/-- Python truthiness of `conversation_history` (None and "" are falsy). -/
def truthyStr : Option String → Bool
  | none => false
  | some s => s != ""

/-- Python truthiness of `tools` (None and `[]` are falsy). -/
def truthyTools : Option (List ToolDef) → Bool
  | none => false
  | some l => !l.isEmpty

/-- The system content of source lines 83-87. -/
def systemContent (hist : Option String) : String :=
  if truthyStr hist then
    SYSTEM_PROMPT ++ "\n\nPrevious conversation:\n" ++ hist.getD ""
  else SYSTEM_PROMPT

/-- `generate_response` (source lines 65-109). -/
def generate_response (g : AIGenerator) (cfg : RagConfig) (client : Client)
    (query : String) (conversation_history : Option String)
    (tools : Option (List ToolDef)) (tool_manager : Option ToolManager) :
    Except String String × CallLog :=
  let system_content := systemContent conversation_history
  let api_params :=
    if truthyTools tools then
      mkParams g [⟨"user", .str query⟩] system_content tools (some "auto")
    else
      mkParams g [⟨"user", .str query⟩] system_content none none
  match callModel client CallLog.empty api_params with
  | (.error e, log) => (.error e, log)
  | (.ok response, log) =>
    if response.stop_reason = "tool_use" then
      match tool_manager with
      | some tm => handle_tool_execution g cfg client tm response api_params log
      | none => (firstText response.content, log)
    else (firstText response.content, log)

/-- A content list contains at least one `tool_use` block. -/
def containsToolUse (bs : List ContentBlock) : Bool :=
  bs.any (fun b => b.type == "tool_use")

/-- The sublist of `tool_use` blocks, in order of appearance. -/
def toolUseBlocks (bs : List ContentBlock) : List ContentBlock :=
  bs.filter (fun b => b.type == "tool_use")

/-! Concrete data used by the witnesses. -/

def demoGen : AIGenerator := ⟨"claude-sonnet-4"⟩

def demoToolBlock : ContentBlock :=
  ⟨"tool_use", "", "search_course_content", "tool_123", [("query", "What is RAG?")]⟩

def demoToolResp : ModelResponse := ⟨"tool_use", [demoToolBlock]⟩

def demoTextBlock : ContentBlock := ⟨"text", "Final answer", "", "", []⟩

def demoFinalResp : ModelResponse := ⟨"end_turn", [demoTextBlock]⟩

def demoClient2 : Client := fun i => if i < 2 then .ok demoToolResp else .ok demoFinalResp

def demoClient1 : Client := fun i => if i = 0 then .ok demoToolResp else .ok demoFinalResp

def demoClient0 : Client := fun _ => .ok demoFinalResp

def demoTM : ToolManager := fun _ _ => .ok "Tool result"

/-- C3: if the first model response's stop reason is not "tool_use",
`generate_response` returns that response's first content block's text,
makes exactly one model call, and executes no tool. -/
theorem C3_no_tool_use_single_call (g : AIGenerator) (cfg : RagConfig) (client : Client)
    (query : String) (hist : Option String) (tools : Option (List ToolDef))
    (tool_manager : Option ToolManager) (r : ModelResponse) (b : ContentBlock)
    (rest : List ContentBlock)
    (hc : client 0 = .ok r) (hs : r.stop_reason ≠ "tool_use") (hb : r.content = b :: rest) :
    (generate_response g cfg client query hist tools tool_manager).1 = .ok b.text ∧
    (generate_response g cfg client query hist tools tool_manager).2.apiCalls.length = 1 ∧
    (generate_response g cfg client query hist tools tool_manager).2.toolCalls = [] := by
  simp only [generate_response, callModel, CallLog.empty, List.length_nil, hc]
  simp [hs, hb, firstText]

/-- Witness for C3 at concrete inputs. -/
theorem C3_witness :
    (generate_response demoGen defaultConfig demoClient0 "q" none (some ["t"]) (some demoTM)).1
      = .ok "Final answer" ∧
    (generate_response demoGen defaultConfig demoClient0 "q" none (some ["t"])
      (some demoTM)).2.apiCalls.length = 1 ∧
    (generate_response demoGen defaultConfig demoClient0 "q" none (some ["t"])
      (some demoTM)).2.toolCalls = [] :=
  C3_no_tool_use_single_call demoGen defaultConfig demoClient0 "q" none (some ["t"])
    (some demoTM) demoFinalResp demoTextBlock [] rfl (by decide) rfl

/-- C9: with `tool_manager` absent, exactly one model call is made and no
tool is ever executed, whatever the stop reason; in particular a tool-use
response's first content block's text is returned. -/
theorem C9_no_manager_single_call (g : AIGenerator) (cfg : RagConfig) (client : Client)
    (query : String) (hist : Option String) (tools : Option (List ToolDef))
    (r : ModelResponse) (b : ContentBlock) (rest : List ContentBlock)
    (hc : client 0 = .ok r) (hb : r.content = b :: rest) :
    (generate_response g cfg client query hist tools none).1 = .ok b.text ∧
    (generate_response g cfg client query hist tools none).2.apiCalls.length = 1 ∧
    (generate_response g cfg client query hist tools none).2.toolCalls = [] := by
  simp only [generate_response, callModel, CallLog.empty, List.length_nil, hc]
  by_cases hs : r.stop_reason = "tool_use" <;> simp [hs, hb, firstText]

/-- Witness for C9: the model requests a tool but no manager is supplied;
the tool-request response's first block's text is returned after one call. -/
theorem C9_witness :
    (generate_response demoGen defaultConfig demoClient1 "q" none (some ["t"]) none).1
      = .ok "" ∧
    (generate_response demoGen defaultConfig demoClient1 "q" none (some ["t"])
      none).2.apiCalls.length = 1 ∧
    (generate_response demoGen defaultConfig demoClient1 "q" none (some ["t"])
      none).2.toolCalls = [] :=
  C9_no_manager_single_call demoGen defaultConfig demoClient1 "q" none (some ["t"])
    demoToolResp demoToolBlock [] rfl rfl

/-- C2: when the round counter reaches the configured maximum the loop
returns the text of the most recent model response verbatim (first part:
the loop at exhausted fuel returns `current.content[0].text` with no
further model call or tool execution, whatever the stop reason); and if the
limit is hit immediately (`MAX_TOOL_ROUNDS = 0`) `generate_response` on a
tool-requesting first response returns that response's text after exactly
one model call and zero tool executions (second part). -/
theorem C2_limit_returns_verbatim (g : AIGenerator) (cfg : RagConfig) (client : Client)
    (tm : ToolManager) (bp : ApiParams) (query : String) (hist : Option String)
    (tools : Option (List ToolDef)) (r0 : ModelResponse) (b0 : ContentBlock)
    (rest0 : List ContentBlock)
    (hcfg : cfg.MAX_TOOL_ROUNDS = 0) (hc : client 0 = .ok r0)
    (hs : r0.stop_reason = "tool_use") (hb : r0.content = b0 :: rest0) :
    (∀ (msgs : List ChatMessage) (current : ModelResponse) (log : CallLog)
        (b : ContentBlock) (rest : List ContentBlock), current.content = b :: rest →
        toolRounds g client tm bp 0 msgs current log = (.ok b.text, log)) ∧
    ((generate_response g cfg client query hist tools (some tm)).1 = .ok b0.text ∧
     (generate_response g cfg client query hist tools (some tm)).2.apiCalls.length = 1 ∧
     (generate_response g cfg client query hist tools (some tm)).2.toolCalls = [] ∧
     (generate_response g cfg client query hist tools (some tm)).2.execRounds = 0) := by
  constructor
  · intro msgs current log b rest hcur
    simp [toolRounds, hcur, firstText]
  · simp only [generate_response, callModel, CallLog.empty, List.length_nil, hc]
    simp [hs, handle_tool_execution, hcfg, toolRounds, hb, firstText]

/-- Witness for C2 with the round limit configured to 0. -/
theorem C2_witness :
    (∀ (msgs : List ChatMessage) (current : ModelResponse) (log : CallLog)
        (b : ContentBlock) (rest : List ContentBlock), current.content = b :: rest →
        toolRounds demoGen demoClient2 demoTM (mkParams demoGen [] "s" none none) 0 msgs
          current log = (.ok b.text, log)) ∧
    ((generate_response demoGen ⟨0⟩ demoClient2 "q" none (some ["t"]) (some demoTM)).1
        = .ok "" ∧
     (generate_response demoGen ⟨0⟩ demoClient2 "q" none (some ["t"])
       (some demoTM)).2.apiCalls.length = 1 ∧
     (generate_response demoGen ⟨0⟩ demoClient2 "q" none (some ["t"])
       (some demoTM)).2.toolCalls = [] ∧
     (generate_response demoGen ⟨0⟩ demoClient2 "q" none (some ["t"])
       (some demoTM)).2.execRounds = 0) :=
  C2_limit_returns_verbatim demoGen ⟨0⟩ demoClient2 demoTM
    (mkParams demoGen [] "s" none none) "q" none (some ["t"]) demoToolResp demoToolBlock []
    rfl rfl rfl rfl

/-- C5: an invocation needing exactly one tool round (first response
requests one tool, second does not) makes exactly two model calls; the
second call's transcript is exactly the three turns user query, assistant
tool-call, user tool-results; and the requested tool is dispatched exactly
once with the request's arguments. -/
theorem C5_one_round_two_calls (g : AIGenerator) (cfg : RagConfig) (client : Client)
    (tm : ToolManager) (query : String) (hist : Option String)
    (tools : Option (List ToolDef)) (r0 fin : ModelResponse) (b : ContentBlock) (s : String)
    (hM : 0 < cfg.MAX_TOOL_ROUNDS)
    (hc0 : client 0 = .ok r0) (hr0s : r0.stop_reason = "tool_use")
    (hr0c : r0.content = [b]) (hbt : b.type = "tool_use")
    (htm : tm b.name b.input = .ok s)
    (hc1 : client 1 = .ok fin) (hfs : fin.stop_reason ≠ "tool_use") :
    (generate_response g cfg client query hist tools (some tm)).2.apiCalls.map
        (fun p => p.messages) =
      [[⟨"user", .str query⟩],
       [⟨"user", .str query⟩, ⟨"assistant", .blocks [b]⟩,
        ⟨"user", .toolResults [⟨"tool_result", b.id, s⟩]⟩]] ∧
    (generate_response g cfg client query hist tools (some tm)).2.apiCalls.length = 2 ∧
    (generate_response g cfg client query hist tools (some tm)).2.toolCalls
      = [(b.name, b.input)] := by
  obtain ⟨f, hf⟩ : ∃ f, cfg.MAX_TOOL_ROUNDS = f + 1 :=
    ⟨cfg.MAX_TOOL_ROUNDS - 1, (Nat.succ_pred_eq_of_pos hM).symm⟩
  simp only [generate_response, callModel, CallLog.empty, List.length_nil, hc0]
  by_cases ht : truthyTools tools <;>
    simp only [ht, if_true, if_false, hr0s, handle_tool_execution, hf] <;>
    simp only [toolRounds, hr0s, ne_eq, not_true_eq_false, if_false, hr0c,
      runToolBlocks, hbt, if_true, execTool, htm] <;>
    simp only [callModel, List.length_append, List.length_nil, List.length_cons] <;>
    simp [hc1] <;>
    cases f with
    | zero => simp [toolRounds, mkParams]
    | succ f' => simp [toolRounds, hfs, mkParams]

/-- Witness for C5 at concrete inputs. -/
theorem C5_witness :
    (generate_response demoGen defaultConfig demoClient1 "Test query" none (some ["t"])
        (some demoTM)).2.apiCalls.map (fun p => p.messages) =
      [[⟨"user", .str "Test query"⟩],
       [⟨"user", .str "Test query"⟩, ⟨"assistant", .blocks [demoToolBlock]⟩,
        ⟨"user", .toolResults [⟨"tool_result", "tool_123", "Tool result"⟩]⟩]] ∧
    (generate_response demoGen defaultConfig demoClient1 "Test query" none (some ["t"])
      (some demoTM)).2.apiCalls.length = 2 ∧
    (generate_response demoGen defaultConfig demoClient1 "Test query" none (some ["t"])
      (some demoTM)).2.toolCalls
        = [("search_course_content", [("query", "What is RAG?")])] :=
  C5_one_round_two_calls demoGen defaultConfig demoClient1 demoTM "Test query" none
    (some ["t"]) demoToolResp demoFinalResp demoToolBlock "Tool result"
    (by decide) rfl rfl rfl rfl rfl rfl (by decide)

def demoClientErr0 : Client := fun _ => .error "API Error"

def demoClientErr1 : Client := fun i => if i = 0 then .ok demoToolResp else .error "API Error"

def demoTMErr : ToolManager := fun _ _ => .error "Tool dispatch failed"

/-- C6: exceptions are propagated uncaught, with no retries.  Part one: a
failing first model call makes the invocation terminate with that error
after exactly one call and no tool execution.  Part two: a failing tool
dispatch terminates the invocation with that error after the single dispatch
and no further model call.  Part three: a failing follow-up model call
terminates the invocation with that error after exactly two calls. -/
theorem C6_errors_propagate (g : AIGenerator) (cfg : RagConfig) (query : String)
    (hist : Option String) (tools : Option (List ToolDef)) :
    (∀ (client : Client) (tm : ToolManager) (e : String), client 0 = .error e →
      (generate_response g cfg client query hist tools (some tm)).1 = .error e ∧
      (generate_response g cfg client query hist tools (some tm)).2.apiCalls.length = 1 ∧
      (generate_response g cfg client query hist tools (some tm)).2.toolCalls = []) ∧
    (∀ (client : Client) (tm : ToolManager) (e : String) (r0 : ModelResponse)
        (b : ContentBlock), 0 < cfg.MAX_TOOL_ROUNDS → client 0 = .ok r0 →
      r0.stop_reason = "tool_use" → r0.content = [b] → b.type = "tool_use" →
      tm b.name b.input = .error e →
      (generate_response g cfg client query hist tools (some tm)).1 = .error e ∧
      (generate_response g cfg client query hist tools (some tm)).2.apiCalls.length = 1 ∧
      (generate_response g cfg client query hist tools (some tm)).2.toolCalls
        = [(b.name, b.input)]) ∧
    (∀ (client : Client) (tm : ToolManager) (e : String) (r0 : ModelResponse)
        (b : ContentBlock) (s : String), 0 < cfg.MAX_TOOL_ROUNDS → client 0 = .ok r0 →
      r0.stop_reason = "tool_use" → r0.content = [b] → b.type = "tool_use" →
      tm b.name b.input = .ok s → client 1 = .error e →
      (generate_response g cfg client query hist tools (some tm)).1 = .error e ∧
      (generate_response g cfg client query hist tools (some tm)).2.apiCalls.length = 2) := by
  refine ⟨?_, ?_, ?_⟩
  · intro client tm e hc0
    simp only [generate_response, callModel, CallLog.empty, List.length_nil, hc0]
    by_cases ht : truthyTools tools <;> simp [ht]
  · intro client tm e r0 b hM hc0 hr0s hr0c hbt htm
    obtain ⟨f, hf⟩ : ∃ f, cfg.MAX_TOOL_ROUNDS = f + 1 :=
      ⟨cfg.MAX_TOOL_ROUNDS - 1, (Nat.succ_pred_eq_of_pos hM).symm⟩
    simp only [generate_response, callModel, CallLog.empty, List.length_nil, hc0]
    by_cases ht : truthyTools tools <;>
      simp only [ht, if_true, if_false, hr0s, handle_tool_execution, hf] <;>
      simp [toolRounds, hr0s, hr0c, runToolBlocks, hbt, execTool, htm]
  · intro client tm e r0 b s hM hc0 hr0s hr0c hbt htm hc1
    obtain ⟨f, hf⟩ : ∃ f, cfg.MAX_TOOL_ROUNDS = f + 1 :=
      ⟨cfg.MAX_TOOL_ROUNDS - 1, (Nat.succ_pred_eq_of_pos hM).symm⟩
    simp only [generate_response, callModel, CallLog.empty, List.length_nil, hc0]
    by_cases ht : truthyTools tools <;>
      simp only [ht, if_true, if_false, hr0s, handle_tool_execution, hf] <;>
      simp only [toolRounds, hr0s, ne_eq, not_true_eq_false, if_false, hr0c,
        runToolBlocks, hbt, if_true, execTool, htm] <;>
      simp only [callModel, List.length_append, List.length_nil, List.length_cons] <;>
      simp [hc1]

/-- Witness for C6: the three failure modes at concrete inputs. -/
theorem C6_witness :
    ((generate_response demoGen defaultConfig demoClientErr0 "q" none (some ["t"])
        (some demoTM)).1 = .error "API Error" ∧
     (generate_response demoGen defaultConfig demoClientErr0 "q" none (some ["t"])
        (some demoTM)).2.apiCalls.length = 1 ∧
     (generate_response demoGen defaultConfig demoClientErr0 "q" none (some ["t"])
        (some demoTM)).2.toolCalls = []) ∧
    ((generate_response demoGen defaultConfig demoClient1 "q" none (some ["t"])
        (some demoTMErr)).1 = .error "Tool dispatch failed" ∧
     (generate_response demoGen defaultConfig demoClient1 "q" none (some ["t"])
        (some demoTMErr)).2.apiCalls.length = 1 ∧
     (generate_response demoGen defaultConfig demoClient1 "q" none (some ["t"])
        (some demoTMErr)).2.toolCalls
          = [("search_course_content", [("query", "What is RAG?")])]) ∧
    ((generate_response demoGen defaultConfig demoClientErr1 "q" none (some ["t"])
        (some demoTM)).1 = .error "API Error" ∧
     (generate_response demoGen defaultConfig demoClientErr1 "q" none (some ["t"])
        (some demoTM)).2.apiCalls.length = 2) :=
  ⟨(C6_errors_propagate demoGen defaultConfig "q" none (some ["t"])).1
      demoClientErr0 demoTM "API Error" rfl,
   (C6_errors_propagate demoGen defaultConfig "q" none (some ["t"])).2.1
      demoClient1 demoTMErr "Tool dispatch failed" demoToolResp demoToolBlock
      (by decide) rfl rfl rfl rfl rfl,
   (C6_errors_propagate demoGen defaultConfig "q" none (some ["t"])).2.2
      demoClientErr1 demoTM "API Error" demoToolResp demoToolBlock "Tool result"
      (by decide) rfl rfl rfl rfl rfl rfl⟩

/-- Executing a round's content blocks: when the manager succeeds on every
`tool_use` block, the block loop dispatches exactly the `tool_use` blocks in
order of appearance and produces one `tool_result` entry per block, with the
block's id and the dispatched output. -/
theorem runToolBlocks_ok (tm : ToolManager) (out : ContentBlock → String) :
    ∀ (bs : List ContentBlock) (log : CallLog),
    (∀ b ∈ toolUseBlocks bs, tm b.name b.input = .ok (out b)) →
    runToolBlocks tm bs log =
      (.ok ((toolUseBlocks bs).map fun b => ⟨"tool_result", b.id, out b⟩),
       {log with toolCalls :=
          log.toolCalls ++ (toolUseBlocks bs).map fun b => (b.name, b.input)})
  | [], log, _ => by simp [runToolBlocks, toolUseBlocks]
  | b :: rest, log, h => by
    by_cases hbt : b.type = "tool_use"
    · have hb : tm b.name b.input = .ok (out b) := by
        apply h; simp [toolUseBlocks, List.filter_cons, hbt]
      have hrest := runToolBlocks_ok tm out rest
        {log with toolCalls := log.toolCalls ++ [(b.name, b.input)]}
        (fun b' hb' => h b' (by simp [toolUseBlocks, List.filter_cons, hbt] at hb' ⊢; right; exact hb'))
      simp only [runToolBlocks, hbt, if_true, execTool, hb, hrest]
      simp [toolUseBlocks, List.filter_cons, hbt]
    · have hrest := runToolBlocks_ok tm out rest log
        (fun b' hb' => h b' (by simp [toolUseBlocks, List.filter_cons, hbt] at hb' ⊢; exact hb'))
      simp only [runToolBlocks, hbt, if_false, hrest]
      simp [toolUseBlocks, List.filter_cons, hbt]

/-- C4 (amended): a model response containing N (at least one) `tool_use`
blocks processed in one round yields exactly N tool dispatches, one per
block, sequentially in block order, and exactly one combined user-role
tool-result turn whose i-th entry carries the i-th dispatch output and the
i-th block's id.  When the response contains zero `tool_use` blocks, no
tool-result turn is appended at all (see the counterexample). -/
theorem C4_n_dispatches (g : AIGenerator) (cfg : RagConfig) (client : Client)
    (tm : ToolManager) (query : String) (hist : Option String)
    (tools : Option (List ToolDef)) (r0 fin : ModelResponse) (out : ContentBlock → String)
    (hM : 0 < cfg.MAX_TOOL_ROUNDS)
    (hc0 : client 0 = .ok r0) (hr0s : r0.stop_reason = "tool_use")
    (hne : toolUseBlocks r0.content ≠ [])
    (htm : ∀ b ∈ toolUseBlocks r0.content, tm b.name b.input = .ok (out b))
    (hc1 : client 1 = .ok fin) (hfs : fin.stop_reason ≠ "tool_use") :
    (generate_response g cfg client query hist tools (some tm)).2.toolCalls
      = (toolUseBlocks r0.content).map (fun b => (b.name, b.input)) ∧
    (generate_response g cfg client query hist tools (some tm)).2.apiCalls.map
        (fun p => p.messages) =
      [[⟨"user", .str query⟩],
       [⟨"user", .str query⟩, ⟨"assistant", .blocks r0.content⟩,
        ⟨"user", .toolResults
          ((toolUseBlocks r0.content).map fun b => ⟨"tool_result", b.id, out b⟩)⟩]] := by
  obtain ⟨f, hf⟩ : ∃ f, cfg.MAX_TOOL_ROUNDS = f + 1 :=
    ⟨cfg.MAX_TOOL_ROUNDS - 1, (Nat.succ_pred_eq_of_pos hM).symm⟩
  have hres : ((toolUseBlocks r0.content).map
      (fun b => (⟨"tool_result", b.id, out b⟩ : ToolResult))).isEmpty = false := by
    cases h : toolUseBlocks r0.content with
    | nil => exact absurd h hne
    | cons x xs => simp [h]
  simp only [generate_response, callModel, CallLog.empty, List.length_nil, hc0]
  by_cases ht : truthyTools tools <;>
    simp only [ht, if_true, if_false, hr0s, handle_tool_execution, hf] <;>
    simp only [toolRounds, hr0s, ne_eq, not_true_eq_false, if_false,
      runToolBlocks_ok tm out r0.content _ htm, hres, Bool.false_eq_true] <;>
    simp only [callModel, List.length_append, List.length_nil, List.length_cons] <;>
    simp [hc1] <;>
    cases f with
    | zero => simp [toolRounds, mkParams]
    | succ f' => simp [toolRounds, hfs, mkParams]

def demoToolBlockB : ContentBlock :=
  ⟨"tool_use", "", "get_course_outline", "tool_456", [("course_title", "Course A")]⟩

def demoTwoToolResp : ModelResponse := ⟨"tool_use", [demoToolBlock, demoToolBlockB]⟩

def demoClientTwo : Client := fun i => if i = 0 then .ok demoTwoToolResp else .ok demoFinalResp

def demoTM2 : ToolManager := fun nm _ =>
  if nm = "search_course_content" then .ok "Result 1" else .ok "Result 2"

def demoOut (b : ContentBlock) : String :=
  if b.name = "search_course_content" then "Result 1" else "Result 2"

/-- Witness for C4 (amended) with a two-tool response. -/
theorem C4_witness :
    (generate_response demoGen defaultConfig demoClientTwo "q" none (some ["t"])
        (some demoTM2)).2.toolCalls
      = [("search_course_content", [("query", "What is RAG?")]),
         ("get_course_outline", [("course_title", "Course A")])] ∧
    (generate_response demoGen defaultConfig demoClientTwo "q" none (some ["t"])
        (some demoTM2)).2.apiCalls.map (fun p => p.messages) =
      [[⟨"user", .str "q"⟩],
       [⟨"user", .str "q"⟩, ⟨"assistant", .blocks [demoToolBlock, demoToolBlockB]⟩,
        ⟨"user", .toolResults [⟨"tool_result", "tool_123", "Result 1"⟩,
                               ⟨"tool_result", "tool_456", "Result 2"⟩]⟩]] := by
  have h := C4_n_dispatches demoGen defaultConfig demoClientTwo demoTM2 "q" none
    (some ["t"]) demoTwoToolResp demoFinalResp demoOut (by decide) rfl rfl (by decide)
    (by intro b hb
        simp [toolUseBlocks, demoTwoToolResp, demoToolBlock, demoToolBlockB,
          List.filter_cons] at hb
        rcases hb with rfl | rfl <;> simp [demoTM2, demoOut])
    rfl (by decide)
  simpa [demoTwoToolResp, toolUseBlocks, demoToolBlock, demoToolBlockB, demoOut] using h

def demoNoBlockResp : ModelResponse := ⟨"tool_use", [demoTextBlock]⟩

def demoClientNB : Client := fun i => if i = 0 then .ok demoNoBlockResp else .ok demoFinalResp

/-- Counterexample to C4 as stated: a response whose stop reason is
"tool_use" but which contains zero `tool_use` blocks (N = 0) leads to zero
dispatches and to NO combined tool-result turn being appended: the second
model call's transcript is just the user query and the assistant turn,
whereas the claim demands one combined tool-result turn with N entries. -/
theorem C4_counterexample :
    (generate_response demoGen defaultConfig demoClientNB "q" none (some ["t"])
        (some demoTM)).2.toolCalls = [] ∧
    (generate_response demoGen defaultConfig demoClientNB "q" none (some ["t"])
        (some demoTM)).2.apiCalls.map (fun p => p.messages) =
      [[⟨"user", .str "q"⟩],
       [⟨"user", .str "q"⟩, ⟨"assistant", .blocks [demoTextBlock]⟩]] :=
  ⟨rfl, rfl⟩

/-- The per-round block loop touches only the tool-call log: it makes no
model call and changes no round counter. -/
theorem runToolBlocks_preserves (tm : ToolManager) :
    ∀ (bs : List ContentBlock) (log : CallLog),
      (runToolBlocks tm bs log).2.apiCalls = log.apiCalls ∧
      (runToolBlocks tm bs log).2.execRounds = log.execRounds
  | [], _log => ⟨rfl, rfl⟩
  | b :: rest, log => by
    by_cases hbt : b.type = "tool_use"
    · simp only [runToolBlocks, hbt, if_true, execTool]
      cases htm : tm b.name b.input with
      | error e => exact ⟨rfl, rfl⟩
      | ok s =>
        rcases hrb : runToolBlocks tm rest
          {log with toolCalls := log.toolCalls ++ [(b.name, b.input)]} with ⟨res, log2⟩
        have ih := runToolBlocks_preserves tm rest
          {log with toolCalls := log.toolCalls ++ [(b.name, b.input)]}
        rw [hrb] at ih
        dsimp only
        rw [hrb]
        cases res <;> simpa using ih
    · simp only [runToolBlocks, hbt, if_false]
      exact runToolBlocks_preserves tm rest log

/-- Every model call recorded by the round loop (beyond those already in
the log) carries the constructor-fixed model id, temperature 0, max_tokens
800, and the system content of the base parameters. -/
theorem toolRounds_call_fields (g : AIGenerator) (client : Client) (tm : ToolManager)
    (bp : ApiParams) :
    ∀ (f : Nat) (msgs : List ChatMessage) (current : ModelResponse) (log : CallLog),
      ∀ p ∈ (toolRounds g client tm bp f msgs current log).2.apiCalls,
        p ∈ log.apiCalls ∨
          (p.model = g.model ∧ p.temperature = 0 ∧ p.max_tokens = 800 ∧
           p.system = bp.system)
  | 0, _msgs, _current, _log => fun _p hp => Or.inl hp
  | f + 1, msgs, current, log => by
    intro p hp
    simp only [toolRounds] at hp
    split at hp
    · exact Or.inl hp
    · split at hp
      · next e log2 heq =>
        have hpres := (runToolBlocks_preserves tm current.content
          {log with execRounds := log.execRounds + 1}).1
        rw [heq] at hpres
        simp only at hpres
        rw [hpres] at hp
        exact Or.inl hp
      · next rs log2 heq =>
        have hpres := (runToolBlocks_preserves tm current.content
          {log with execRounds := log.execRounds + 1}).1
        rw [heq] at hpres
        simp only at hpres
        split at hp
        · next e log3 heq2 =>
          simp only [callModel, Prod.mk.injEq] at heq2
          rw [← heq2.2] at hp
          simp only [List.mem_append, List.mem_singleton, hpres] at hp
          rcases hp with h | rfl
          · exact Or.inl h
          · right
            by_cases hf : f = 0 <;> simp [hf, mkParams]
        · next resp log3 heq2 =>
          simp only [callModel, Prod.mk.injEq] at heq2
          have ih := toolRounds_call_fields g client tm bp f _ resp log3 p hp
          rcases ih with h | h
          · rw [← heq2.2] at h
            simp only [List.mem_append, List.mem_singleton, hpres] at h
            rcases h with h | rfl
            · exact Or.inl h
            · right
              by_cases hf : f = 0 <;> simp [hf, mkParams]
          · exact Or.inr h

/-- Every model call recorded by a `generate_response` invocation carries
the constructor-fixed model id, temperature 0, max_tokens 800, and the
system content derived from the conversation history. -/
theorem generate_call_fields (g : AIGenerator) (cfg : RagConfig) (client : Client)
    (query : String) (hist : Option String) (tools : Option (List ToolDef))
    (tool_manager : Option ToolManager) :
    ∀ p ∈ (generate_response g cfg client query hist tools tool_manager).2.apiCalls,
      p.model = g.model ∧ p.temperature = 0 ∧ p.max_tokens = 800 ∧
      p.system = systemContent hist := by
  have hP : ∀ q : ApiParams, q = (if truthyTools tools then
        mkParams g [⟨"user", .str query⟩] (systemContent hist) tools (some "auto")
      else mkParams g [⟨"user", .str query⟩] (systemContent hist) none none) →
      q.model = g.model ∧ q.temperature = 0 ∧ q.max_tokens = 800 ∧
      q.system = systemContent hist := by
    intro q hq
    by_cases ht : truthyTools tools <;> simp [ht] at hq <;> simp [hq, mkParams]
  intro p hp
  simp only [generate_response, callModel, CallLog.empty, List.length_nil,
    List.nil_append, handle_tool_execution] at hp
  rcases hcl : client 0 with e | response <;> rw [hcl] at hp <;> dsimp only at hp
  · exact hP p (List.mem_singleton.mp hp)
  · split at hp
    · split at hp
      · next tm =>
        have hinv := toolRounds_call_fields g client tm _ cfg.MAX_TOOL_ROUNDS _ response _ p hp
        rcases hinv with h | h
        · exact hP p (List.mem_singleton.mp h)
        · refine ⟨h.1, h.2.1, h.2.2.1, ?_⟩
          rw [h.2.2.2]
          by_cases ht : truthyTools tools <;> simp [ht, mkParams]
      · exact hP p (List.mem_singleton.mp hp)
    · exact hP p (List.mem_singleton.mp hp)

/-- C8: every model call of an invocation (initial and in-loop alike)
carries sampling temperature 0, a fixed 800-token output budget, and the
model id fixed at construction time. -/
theorem C8_params (g : AIGenerator) (cfg : RagConfig) (client : Client)
    (query : String) (hist : Option String) (tools : Option (List ToolDef))
    (tool_manager : Option ToolManager) :
    ∀ p ∈ (generate_response g cfg client query hist tools tool_manager).2.apiCalls,
      p.temperature = 0 ∧ p.max_tokens = 800 ∧ p.model = g.model := fun p hp =>
  have h := generate_call_fields g cfg client query hist tools tool_manager p hp
  ⟨h.2.1, h.2.2.1, h.1⟩

/-- Witness for C8: the initial call of a concrete run. -/
theorem C8_witness :
    (mkParams demoGen [⟨"user", .str "q"⟩] (systemContent none) (some ["t"])
        (some "auto")).temperature = 0 ∧
    (mkParams demoGen [⟨"user", .str "q"⟩] (systemContent none) (some ["t"])
        (some "auto")).max_tokens = 800 ∧
    (mkParams demoGen [⟨"user", .str "q"⟩] (systemContent none) (some ["t"])
        (some "auto")).model = demoGen.model :=
  C8_params demoGen defaultConfig demoClient0 "q" none (some ["t"]) (some demoTM)
    (mkParams demoGen [⟨"user", .str "q"⟩] (systemContent none) (some ["t"]) (some "auto"))
    (by simp [generate_response, callModel, CallLog.empty, demoClient0, demoFinalResp, truthyTools])

/-- Counterexample to C7 as stated: a supplied-but-empty conversation
history (the empty string) is falsy in Python, so the system content sent
is the bare SYSTEM_PROMPT, not SYSTEM_PROMPT followed by the "Previous
conversation" heading as the claim requires for every supplied history. -/
theorem C7_counterexample :
    (generate_response demoGen defaultConfig demoClient0 "q" (some "") (some ["t"])
        (some demoTM)).2.apiCalls.map (fun p => p.system) = [SYSTEM_PROMPT] ∧
    SYSTEM_PROMPT ≠ SYSTEM_PROMPT ++ "\n\nPrevious conversation:\n" ++ "" :=
  ⟨rfl, by
    intro h
    have hlen := congrArg String.length h
    have h25 : ("\n\nPrevious conversation:\n" : String).length = 25 := rfl
    simp [String.length_append, h25] at hlen⟩

/-- C7 (amended): every model call of an invocation carries the same
system content, which equals SYSTEM_PROMPT when the history is absent or
empty, and SYSTEM_PROMPT followed by the "Previous conversation" heading
and the history text when a non-empty history is supplied. -/
theorem C7_system_instruction (g : AIGenerator) (cfg : RagConfig) (client : Client)
    (query : String) (hist : Option String) (tools : Option (List ToolDef))
    (tool_manager : Option ToolManager) :
    (∀ p ∈ (generate_response g cfg client query hist tools tool_manager).2.apiCalls,
       p.system = systemContent hist) ∧
    systemContent none = SYSTEM_PROMPT ∧
    systemContent (some "") = SYSTEM_PROMPT ∧
    ∀ h : String, h ≠ "" →
      systemContent (some h) = SYSTEM_PROMPT ++ "\n\nPrevious conversation:\n" ++ h := by
  refine ⟨fun p hp =>
    (generate_call_fields g cfg client query hist tools tool_manager p hp).2.2.2,
    rfl, rfl, ?_⟩
  intro h hh
  simp [systemContent, truthyStr, hh]

/-- Witness for C7 (amended) with a non-empty history. -/
theorem C7_witness :
    (mkParams demoGen [⟨"user", .str "q"⟩] (systemContent (some "User: hi")) (some ["t"])
        (some "auto")).system = systemContent (some "User: hi") ∧
    systemContent (some "User: hi")
      = SYSTEM_PROMPT ++ "\n\nPrevious conversation:\n" ++ "User: hi" :=
  ⟨(C7_system_instruction demoGen defaultConfig demoClient0 "q" (some "User: hi")
      (some ["t"]) (some demoTM)).1 _
      (by simp [generate_response, callModel, CallLog.empty, demoClient0, demoFinalResp,
        truthyTools]),
   (C7_system_instruction demoGen defaultConfig demoClient0 "q" (some "User: hi")
      (some ["t"]) (some demoTM)).2.2.2 "User: hi" (by decide)⟩

/-- A content list with some `tool_use` block has a non-empty filtered list. -/
theorem toolUseBlocks_ne_nil (bs : List ContentBlock) (h : containsToolUse bs = true) :
    toolUseBlocks bs ≠ [] := by
  simp only [containsToolUse, List.any_eq_true, beq_iff_eq] at h
  obtain ⟨b, hb, hbt⟩ := h
  simp only [toolUseBlocks, ne_eq, List.filter_eq_nil_iff]
  intro hall
  exact absurd hbt (by simpa using hall b hb)

/-- Running the round loop when every response up to the fuel limit keeps
requesting tools: the loop returns the text of the response of the last
call, records one call per round whose tools/tool_choice flags are attached
on all but the last call, and advances the round counter by the fuel. -/
theorem toolRounds_full_rounds (g : AIGenerator) (client : Client) (tm : ToolManager)
    (bp : ApiParams) (out : String → ToolInput → String) (final : ModelResponse) :
    ∀ (f : Nat) (msgs : List ChatMessage) (current : ModelResponse) (log : CallLog),
      (∀ nm args, tm nm args = .ok (out nm args)) →
      current.stop_reason = "tool_use" → containsToolUse current.content = true →
      (∀ j, j + 1 < f → ∃ r, client (log.apiCalls.length + j) = .ok r ∧
          r.stop_reason = "tool_use" ∧ containsToolUse r.content = true) →
      client (log.apiCalls.length + (f - 1)) = .ok final →
      1 ≤ f →
      (toolRounds g client tm bp f msgs current log).1 = firstText final.content ∧
      (toolRounds g client tm bp f msgs current log).2.apiCalls.map
          (fun p => (p.tools, p.tool_choice))
        = log.apiCalls.map (fun p => (p.tools, p.tool_choice))
          ++ List.replicate (f - 1) (some (bp.tools.getD []), some "auto")
          ++ [(none, none)] ∧
      (toolRounds g client tm bp f msgs current log).2.execRounds = log.execRounds + f
  | 0, _msgs, _current, _log => by omega
  | f + 1, msgs, current, log => by
    intro hout hcs hcc hcli hfin _hf
    have htm' : ∀ b ∈ toolUseBlocks current.content,
        tm b.name b.input = .ok (out b.name b.input) := fun b _ => hout b.name b.input
    have hrb := runToolBlocks_ok tm (fun b => out b.name b.input) current.content
      {log with execRounds := log.execRounds + 1} htm'
    have hres : ((toolUseBlocks current.content).map
        (fun b => (⟨"tool_result", b.id, out b.name b.input⟩ : ToolResult))).isEmpty
          = false := by
      cases h : toolUseBlocks current.content with
      | nil => exact absurd h (toolUseBlocks_ne_nil current.content hcc)
      | cons x xs => simp [h]
    simp only [toolRounds, hcs, ne_eq, not_true_eq_false, if_false, hrb, hres,
      Bool.false_eq_true, callModel]
    cases f with
    | zero =>
      have hfin0 : client log.apiCalls.length = .ok final := by simpa using hfin
      simp [hfin0, toolRounds, List.map_append, mkParams]
    | succ f' =>
      obtain ⟨r, hr, hrs, hrc⟩ := hcli 0 (by omega)
      have hr0 : client log.apiCalls.length = .ok r := by simpa using hr
      simp only [hr0, Nat.succ_ne_zero, not_false_eq_true, if_true]
      set rs := (toolUseBlocks current.content).map
        (fun b => (⟨"tool_result", b.id, out b.name b.input⟩ : ToolResult)) with hrs_def
      set ms2 := msgs ++ [⟨"assistant", .blocks current.content⟩] ++
        [⟨"user", .toolResults rs⟩] with hms2
      set p1 := mkParams g ms2 bp.system (some (bp.tools.getD [])) (some "auto") with hp1
      set log3 : CallLog := ⟨log.apiCalls ++ [p1],
        log.toolCalls ++ (toolUseBlocks current.content).map (fun b => (b.name, b.input)),
        log.execRounds + 1⟩ with hlog3
      have hlen3 : log3.apiCalls.length = log.apiCalls.length + 1 := by
        simp [hlog3]
      obtain ⟨ih1, ih2, ih3⟩ := toolRounds_full_rounds g client tm bp out final (f' + 1)
        ms2 r log3 hout hrs hrc
        (by
          intro j hj
          have hidx : log3.apiCalls.length + j = log.apiCalls.length + (j + 1) := by
            rw [hlen3]; omega
          rw [hidx]
          exact hcli (j + 1) (by omega))
        (by
          have hidx : log3.apiCalls.length + (f' + 1 - 1)
              = log.apiCalls.length + (f' + 1 + 1 - 1) := by
            rw [hlen3]; omega
          rw [hidx]
          exact hfin)
        (by omega)
      refine ⟨ih1, ?_, ?_⟩
      · rw [ih2]
        simp [hlog3, hp1, mkParams, List.replicate_succ]
      · rw [ih3]
        simp [hlog3]
        omega

/-- C1: if the model keeps requesting tools on every round up to the
configured maximum M (each response containing a tool_use block) and every
dispatch succeeds, `generate_response` makes exactly M+1 model calls,
performs exactly M rounds of tool execution, attaches the tool definitions
with tool_choice "auto" to every call except the last, and omits them from
the final call. -/
theorem C1_max_rounds (g : AIGenerator) (cfg : RagConfig) (client : Client)
    (tm : ToolManager) (query : String) (hist : Option String) (ts : List ToolDef)
    (out : String → ToolInput → String) (final : ModelResponse)
    (hne : ts ≠ [])
    (hM : 1 ≤ cfg.MAX_TOOL_ROUNDS)
    (hout : ∀ nm args, tm nm args = .ok (out nm args))
    (hcli : ∀ j, j < cfg.MAX_TOOL_ROUNDS → ∃ r, client j = .ok r ∧
        r.stop_reason = "tool_use" ∧ containsToolUse r.content = true)
    (hfin : client cfg.MAX_TOOL_ROUNDS = .ok final) :
    (generate_response g cfg client query hist (some ts) (some tm)).1
        = firstText final.content ∧
    (generate_response g cfg client query hist (some ts) (some tm)).2.apiCalls.length
        = cfg.MAX_TOOL_ROUNDS + 1 ∧
    (generate_response g cfg client query hist (some ts) (some tm)).2.execRounds
        = cfg.MAX_TOOL_ROUNDS ∧
    (generate_response g cfg client query hist (some ts) (some tm)).2.apiCalls.map
        (fun p => (p.tools, p.tool_choice))
      = List.replicate cfg.MAX_TOOL_ROUNDS (some ts, some "auto") ++ [(none, none)] := by
  obtain ⟨r0, hr0, hr0s, hr0c⟩ := hcli 0 hM
  have htt : truthyTools (some ts) = true := by simp [truthyTools, hne]
  simp only [generate_response, callModel, CallLog.empty, List.length_nil,
    List.nil_append, hr0, htt, if_true, hr0s, handle_tool_execution]
  obtain ⟨ih1, ih2, ih3⟩ := toolRounds_full_rounds g client tm
    (mkParams g [⟨"user", .str query⟩] (systemContent hist) (some ts) (some "auto"))
    out final cfg.MAX_TOOL_ROUNDS
    (mkParams g [⟨"user", .str query⟩] (systemContent hist) (some ts) (some "auto")).messages
    r0
    ⟨[mkParams g [⟨"user", .str query⟩] (systemContent hist) (some ts) (some "auto")], [], 0⟩
    hout hr0s hr0c
    (by
      intro j hj
      have := hcli (j + 1) (by omega)
      simpa [Nat.add_comm] using this)
    (by
      have hidx : (1 : Nat) + (cfg.MAX_TOOL_ROUNDS - 1) = cfg.MAX_TOOL_ROUNDS := by omega
      simpa [hidx] using hfin)
    hM
  refine ⟨ih1, ?_, ?_, ?_⟩
  · have hlen := congrArg List.length ih2
    simp only [List.length_map, List.length_append, List.length_replicate,
      List.length_cons, List.length_nil] at hlen
    rw [hlen]
    omega
  · rw [ih3]
    simp
  · rw [ih2]
    conv_rhs => rw [show cfg.MAX_TOOL_ROUNDS = (cfg.MAX_TOOL_ROUNDS - 1) + 1 from by omega]
    simp [List.replicate_succ, mkParams]

/-- Witness for C1 at the spec default of 2 rounds: 3 calls, 2 rounds,
tools attached to the first two calls only. -/
theorem C1_witness :
    (generate_response demoGen defaultConfig demoClient2 "q" none (some ["t"])
        (some demoTM)).1 = .ok "Final answer" ∧
    (generate_response demoGen defaultConfig demoClient2 "q" none (some ["t"])
        (some demoTM)).2.apiCalls.length = 3 ∧
    (generate_response demoGen defaultConfig demoClient2 "q" none (some ["t"])
        (some demoTM)).2.execRounds = 2 ∧
    (generate_response demoGen defaultConfig demoClient2 "q" none (some ["t"])
        (some demoTM)).2.apiCalls.map (fun p => (p.tools, p.tool_choice))
      = [(some ["t"], some "auto"), (some ["t"], some "auto"), (none, none)] := by
  have h := C1_max_rounds demoGen defaultConfig demoClient2 demoTM "q" none ["t"]
    (fun _ _ => "Tool result") demoFinalResp (by decide) (by decide) (fun _ _ => rfl)
    (by
      intro j hj
      have hj2 : j < 2 := hj
      interval_cases j <;> exact ⟨demoToolResp, rfl, rfl, by decide⟩)
    rfl
  simpa [firstText, demoFinalResp, demoTextBlock, defaultConfig,
    List.replicate_succ] using h

/-- Role alternation check: `altFrom r ms` holds when the roles of `ms`
alternate, expecting "user" first when `r` is true and "assistant" first
otherwise. -/
def altFrom (r : Bool) : List ChatMessage → Bool
  | [] => true
  | m :: rest => (m.role == (if r then "user" else "assistant")) && altFrom (!r) rest

/-- Splitting an alternation check over an append, with the expected first
role of the suffix fixed by the parity of the prefix length. -/
theorem altFrom_append : ∀ (ms ns : List ChatMessage) (r : Bool),
    altFrom r (ms ++ ns)
      = (altFrom r ms && altFrom (if ms.length % 2 = 0 then r else !r) ns)
  | [], ns, r => by simp [altFrom]
  | m :: ms, ns, r => by
    have ih := altFrom_append ms ns (!r)
    by_cases hp : ms.length % 2 = 0
    · simp [altFrom, ih, hp, Nat.succ_mod_two_eq_zero_iff, Nat.succ_mod_two_eq_one_iff,
        Bool.and_assoc]
    · have hp1 : ms.length % 2 = 1 := by omega
      simp [altFrom, ih, hp1, Nat.succ_mod_two_eq_zero_iff, Nat.succ_mod_two_eq_one_iff,
        Bool.and_assoc]

/-- An alternating message list has the expected role at every index. -/
theorem altFrom_roles : ∀ (ms : List ChatMessage) (r : Bool), altFrom r ms = true →
    ∀ (j : Nat) (m : ChatMessage), ms[j]? = some m →
    m.role = if j % 2 = 0 then (if r then "user" else "assistant")
             else (if r then "assistant" else "user")
  | [], _r, _h, j, m => by simp
  | m0 :: ms, r, h, j, m => by
    simp only [altFrom, Bool.and_eq_true, beq_iff_eq] at h
    cases j with
    | zero =>
      intro hm
      simp only [List.getElem?_cons_zero, Option.some_inj] at hm
      subst hm
      simpa using h.1
    | succ j' =>
      intro hm
      simp only [List.getElem?_cons_succ] at hm
      have ih := altFrom_roles ms (!r) h.2 j' m hm
      rcases Nat.mod_two_eq_zero_or_one j' with hp | hp
      · have : (j' + 1) % 2 = 1 := by omega
        cases r <;> simp_all
      · have : (j' + 1) % 2 = 0 := by omega
        cases r <;> simp_all

/-- A successful block loop returns one result per `tool_use` block. -/
theorem runToolBlocks_ok_length (tm : ToolManager) :
    ∀ (bs : List ContentBlock) (log : CallLog) (rs : List ToolResult) (log2 : CallLog),
      runToolBlocks tm bs log = (.ok rs, log2) → rs.length = (toolUseBlocks bs).length
  | [], log, rs, log2 => by
    intro h
    simp only [runToolBlocks, Prod.mk.injEq, Except.ok.injEq] at h
    obtain ⟨h1, _h2⟩ := h
    subst h1
    simp [toolUseBlocks]
  | b :: rest, log, rs, log2 => by
    intro h
    by_cases hbt : b.type = "tool_use"
    · simp only [runToolBlocks, hbt, if_true, execTool] at h
      rcases htm : tm b.name b.input with e | s <;> rw [htm] at h <;> dsimp only at h
      · simp at h
      · rcases hrb : runToolBlocks tm rest
            {log with toolCalls := log.toolCalls ++ [(b.name, b.input)]} with ⟨res, lg⟩
        rw [hrb] at h
        cases res with
        | error e => simp at h
        | ok rs' =>
          dsimp only at h
          simp only [Prod.mk.injEq, Except.ok.injEq] at h
          obtain ⟨h1, _h2⟩ := h
          have ih := runToolBlocks_ok_length tm rest _ rs' lg hrb
          simp [← h1, ih, toolUseBlocks, List.filter_cons, hbt]
    · simp only [runToolBlocks, hbt, if_false] at h
      have ih := runToolBlocks_ok_length tm rest log rs log2 h
      simp [ih, toolUseBlocks, List.filter_cons, hbt]

/-- The round loop only appends to the call log: calls already recorded
when it starts are left in place. -/
theorem toolRounds_keeps_front (g : AIGenerator) (client : Client) (tm : ToolManager)
    (bp : ApiParams) :
    ∀ (f : Nat) (msgs : List ChatMessage) (current : ModelResponse) (log : CallLog)
      (i : Nat), i < log.apiCalls.length →
      (toolRounds g client tm bp f msgs current log).2.apiCalls[i]? = log.apiCalls[i]?
  | 0, _msgs, _current, _log, i => fun _ => rfl
  | f + 1, msgs, current, log, i => by
    intro hi
    simp only [toolRounds]
    split
    · rfl
    · rcases hrb : runToolBlocks tm current.content
        {log with execRounds := log.execRounds + 1} with ⟨res, log2⟩
      have hpres := (runToolBlocks_preserves tm current.content
        {log with execRounds := log.execRounds + 1}).1
      rw [hrb] at hpres
      simp only at hpres
      cases res with
      | error e => simp [hpres]
      | ok rs =>
        dsimp only
        simp only [callModel]
        rcases hcl : client log2.apiCalls.length with e | resp <;> dsimp only
        · rw [List.getElem?_append_left (by rw [hpres]; exact hi), hpres]
        · rw [toolRounds_keeps_front g client tm bp f _ resp _ i
            (by simp only [hpres, List.length_append, List.length_cons, List.length_nil]
                omega)]
          dsimp only
          rw [List.getElem?_append_left (by rw [hpres]; exact hi), hpres]

/-- Transcript invariant of the round loop: provided every tool-requesting
model response contains a `tool_use` block, each recorded call at index `i`
carries a transcript of exactly 2i+1 turns whose roles alternate starting
with "user". -/
theorem toolRounds_transcript (g : AIGenerator) (client : Client) (tm : ToolManager)
    (bp : ApiParams)
    (hcli : ∀ i r, client i = .ok r → r.stop_reason = "tool_use" →
      containsToolUse r.content = true) :
    ∀ (f : Nat) (msgs : List ChatMessage) (current : ModelResponse) (log : CallLog),
      (current.stop_reason = "tool_use" → containsToolUse current.content = true) →
      msgs.length = 2 * log.apiCalls.length - 1 →
      1 ≤ log.apiCalls.length →
      altFrom true msgs = true →
      (∀ i p, log.apiCalls[i]? = some p →
        p.messages.length = 2 * i + 1 ∧ altFrom true p.messages = true) →
      ∀ i p, (toolRounds g client tm bp f msgs current log).2.apiCalls[i]? = some p →
        p.messages.length = 2 * i + 1 ∧ altFrom true p.messages = true
  | 0, _msgs, _current, _log => fun _hcur _hlen _hpos _halt hprev i p hp => hprev i p hp
  | f + 1, msgs, current, log => by
    intro hcur hlen hpos halt hprev i p hp
    by_cases hs : current.stop_reason = "tool_use"
    · have hcc := hcur hs
      simp only [toolRounds, hs, ne_eq, not_true_eq_false, if_false] at hp
      rcases hrb : runToolBlocks tm current.content
        {log with execRounds := log.execRounds + 1} with ⟨res, log2⟩
      have hpres := (runToolBlocks_preserves tm current.content
        {log with execRounds := log.execRounds + 1}).1
      rw [hrb] at hpres hp
      simp only at hpres
      cases res with
      | error e =>
        dsimp only at hp
        rw [hpres] at hp
        exact hprev i p hp
      | ok rs =>
        have hrsne : rs.isEmpty = false := by
          have hlenrs := runToolBlocks_ok_length tm current.content _ rs log2 hrb
          have hbne := toolUseBlocks_ne_nil current.content hcc
          cases h : rs with
          | nil =>
            rw [h] at hlenrs
            cases hbl : toolUseBlocks current.content with
            | nil => exact absurd hbl hbne
            | cons x xs => rw [hbl] at hlenrs; simp at hlenrs
          | cons x xs => simp
        dsimp only at hp
        rw [hrsne] at hp
        simp only [Bool.false_eq_true, if_false, callModel] at hp
        have hparity : msgs.length % 2 = 1 := by omega
        have halt2 : altFrom true (msgs ++
            [(⟨"assistant", .blocks current.content⟩ : ChatMessage)] ++
            [(⟨"user", .toolResults rs⟩ : ChatMessage)]) = true := by
          rw [altFrom_append, altFrom_append]
          simp [halt, altFrom, hparity, List.length_append, Nat.add_mod]
        rcases hcl : client log2.apiCalls.length with e | resp <;> rw [hcl] at hp <;>
          try dsimp only at hp
        · rcases Nat.lt_trichotomy i log.apiCalls.length with hilt | rfl | higt
          · rw [List.getElem?_append_left (by rw [hpres]; exact hilt), hpres] at hp
            exact hprev i p hp
          · rw [List.getElem?_append_right (Nat.le_of_eq (by rw [hpres]))] at hp
            rw [hpres] at hp
            simp only [Nat.sub_self, List.getElem?_cons_zero, Option.some_inj] at hp
            subst hp
            constructor
            · simp only [apply_ite ApiParams.messages, mkParams, ite_self,
                List.length_append, List.length_cons, List.length_nil]
              omega
            · simp only [apply_ite ApiParams.messages, mkParams, ite_self]
              exact halt2
          · rw [List.getElem?_append_right (by rw [hpres]; omega), hpres] at hp
            have hge : 1 ≤ i - log.apiCalls.length := by omega
            rcases Nat.exists_eq_add_of_le hge with ⟨k, hk⟩
            have h1k : 1 + k = k + 1 := Nat.add_comm 1 k
            rw [hk, h1k] at hp
            simp at hp
        · have hresp := hcli log2.apiCalls.length resp hcl
          exact toolRounds_transcript g client tm bp hcli f _ resp _ hresp
            (by
              simp only [List.length_append, List.length_cons, List.length_nil, hpres]
              omega)
            (by
              simp only [List.length_append, List.length_cons, List.length_nil]
              omega)
            halt2
            (by
              intro i2 p2 hp2
              try dsimp only at hp2
              rcases Nat.lt_trichotomy i2 log.apiCalls.length with hilt | rfl | higt
              · rw [List.getElem?_append_left (by rw [hpres]; exact hilt), hpres] at hp2
                exact hprev i2 p2 hp2
              · rw [List.getElem?_append_right (Nat.le_of_eq (by rw [hpres]))] at hp2
                rw [hpres] at hp2
                simp only [Nat.sub_self, List.getElem?_cons_zero, Option.some_inj] at hp2
                subst hp2
                refine ⟨?_, ?_⟩
                · by_cases hf : f = 0 <;>
                    (simp [hf, mkParams, List.length_append]; try omega)
                · by_cases hf : f = 0 <;> simpa [hf, mkParams] using halt2
              · rw [List.getElem?_append_right (by rw [hpres]; omega), hpres] at hp2
                have hge : 1 ≤ i2 - log.apiCalls.length := by omega
                rcases Nat.exists_eq_add_of_le hge with ⟨k, hk⟩
                have h1k : 1 + k = k + 1 := Nat.add_comm 1 k
                rw [hk, h1k] at hp2
                simp at hp2)
            i p hp
    · simp only [toolRounds, hs, ne_eq, not_false_eq_true, if_true] at hp
      exact hprev i p hp

/-- C10: in a run of `generate_response` with a tool manager, provided
every tool-requesting model response contains at least one `tool_use`
block, the transcript passed to the model call made after k completed tool
rounds (call index k) has exactly 2k+1 turns whose roles alternate starting
and ending with "user"; and the first call's transcript is exactly the
single user-query turn, the loop having worked on a copy. -/
theorem C10_transcript (g : AIGenerator) (cfg : RagConfig) (client : Client)
    (tm : ToolManager) (query : String) (hist : Option String)
    (tools : Option (List ToolDef))
    (hcli : ∀ i r, client i = .ok r → r.stop_reason = "tool_use" →
      containsToolUse r.content = true) :
    (∀ i p, (generate_response g cfg client query hist tools (some tm)).2.apiCalls[i]?
        = some p →
      p.messages.length = 2 * i + 1 ∧
      (∀ j m, p.messages[j]? = some m →
        m.role = if j % 2 = 0 then "user" else "assistant") ∧
      ∃ m, p.messages[2 * i]? = some m ∧ m.role = "user") ∧
    (∀ p0, (generate_response g cfg client query hist tools (some tm)).2.apiCalls[0]?
        = some p0 →
      p0.messages = [⟨"user", .str query⟩]) := by
  have pack : ∀ (p : ApiParams) (i : Nat), p.messages.length = 2 * i + 1 →
      altFrom true p.messages = true →
      p.messages.length = 2 * i + 1 ∧
      (∀ j m, p.messages[j]? = some m →
        m.role = if j % 2 = 0 then "user" else "assistant") ∧
      ∃ m, p.messages[2 * i]? = some m ∧ m.role = "user" := by
    intro p i h1 h2
    refine ⟨h1, fun j m hm => ?_, ?_⟩
    · have := altFrom_roles p.messages true h2 j m hm
      simpa using this
    · have hlt : 2 * i < p.messages.length := by omega
      obtain ⟨m, hm⟩ : ∃ m, p.messages[2 * i]? = some m := by
        rw [List.getElem?_eq_getElem hlt]
        exact ⟨_, rfl⟩
      refine ⟨m, hm, ?_⟩
      have := altFrom_roles p.messages true h2 (2 * i) m hm
      simpa [Nat.mul_mod_right] using this
  by_cases ht : truthyTools tools <;> constructor <;>
  · first
    | (intro i p hp
       simp only [generate_response, callModel, CallLog.empty, List.length_nil,
         List.nil_append, handle_tool_execution, ht, if_true, if_false] at hp
       rcases hcl : client 0 with e | response <;> rw [hcl] at hp <;> dsimp only at hp
       · cases i with
         | zero =>
           simp only [List.getElem?_cons_zero, Option.some_inj] at hp
           subst hp
           exact pack _ 0 (by simp [mkParams]) (by simp [mkParams, altFrom])
         | succ n => simp at hp
       · split at hp
         · have key := toolRounds_transcript g client tm _ hcli cfg.MAX_TOOL_ROUNDS _
             response _ (hcli 0 response hcl)
             (by simp [mkParams])
             (by simp)
             (by simp [mkParams, altFrom])
             (by
               intro i0 p0 hp0
               cases i0 with
               | zero =>
                 simp only [List.getElem?_cons_zero, Option.some_inj] at hp0
                 subst hp0
                 exact ⟨by simp [mkParams], by simp [mkParams, altFrom]⟩
               | succ n => simp at hp0)
             i p hp
           exact pack p i key.1 key.2
         · cases i with
           | zero =>
             simp only [List.getElem?_cons_zero, Option.some_inj] at hp
             subst hp
             exact pack _ 0 (by simp [mkParams]) (by simp [mkParams, altFrom])
           | succ n => simp at hp)
    | (intro p0 hp
       simp only [generate_response, callModel, CallLog.empty, List.length_nil,
         List.nil_append, handle_tool_execution, ht, if_true, if_false] at hp
       rcases hcl : client 0 with e | response <;> rw [hcl] at hp <;> dsimp only at hp
       · simp only [List.getElem?_cons_zero, Option.some_inj] at hp
         subst hp
         simp [mkParams]
       · split at hp
         · rw [toolRounds_keeps_front g client tm _ cfg.MAX_TOOL_ROUNDS _ response _ 0
             (by simp)] at hp
           simp only [List.getElem?_cons_zero, Option.some_inj] at hp
           subst hp
           simp [mkParams]
         · simp only [List.getElem?_cons_zero, Option.some_inj] at hp
           subst hp
           simp [mkParams])

def demoThirdCall : ApiParams :=
  mkParams demoGen
    [⟨"user", .str "q"⟩, ⟨"assistant", .blocks [demoToolBlock]⟩,
      ⟨"user", .toolResults [⟨"tool_result", "tool_123", "Tool result"⟩]⟩,
      ⟨"assistant", .blocks [demoToolBlock]⟩,
      ⟨"user", .toolResults [⟨"tool_result", "tool_123", "Tool result"⟩]⟩]
    (systemContent none) none none

/-- Witness for C10: the third call of a two-round run has the 5-turn
alternating transcript ending in a user turn, and the first call carries
just the query. -/
theorem C10_witness :
    demoThirdCall.messages.length = 2 * 2 + 1 ∧
    (∃ m, demoThirdCall.messages[2 * 2]? = some m ∧ m.role = "user") ∧
    (mkParams demoGen [⟨"user", .str "q"⟩] (systemContent none) (some ["t"])
        (some "auto")).messages = [⟨"user", .str "q"⟩] := by
  have hcli : ∀ i r, demoClient2 i = .ok r → r.stop_reason = "tool_use" →
      containsToolUse r.content = true := by
    intro i r h1 h2
    by_cases hi : i < 2
    · simp only [demoClient2, hi, if_true, Except.ok.injEq] at h1
      subst h1
      decide
    · simp only [demoClient2, hi, if_false, Except.ok.injEq] at h1
      subst h1
      exact absurd h2 (by decide)
  have h := C10_transcript demoGen defaultConfig demoClient2 demoTM "q" none
    (some ["t"]) hcli
  have hA := h.1 2 demoThirdCall rfl
  have hB := h.2 (mkParams demoGen [⟨"user", .str "q"⟩] (systemContent none)
    (some ["t"]) (some "auto")) rfl
  exact ⟨hA.1, hA.2.2, hB⟩
